import Mathlib

/-!
Verification of the spectral signal-processing pipeline of the `spectral`
repository (`src/components/spectral/utils.ts` and the absorbance-view
component).  The TypeScript functions are shallowly embedded: 8-bit pixel
samples become naturals, float arithmetic becomes exact rational or real
arithmetic, `Array` values become lists, and `arr[i] ?? 0` becomes
`List.getD i 0`.
-/

set_option maxHeartbeats 1000000

namespace Spectral

/-- `SPECTRUM_RESOLUTION` constant from `utils.ts` (line 56). -/
def SPECTRUM_RESOLUTION : ℕ := 100

/-- A flat RGBA image block (the browser `ImageData` shape): `width`,
`height` and a flat byte buffer in which channel `c` of the texel at
column `x`, row `y` sits at index `(y*width + x)*4 + c`.  Bytes are 8-bit
unsigned integers, modelled as naturals. -/
structure ImageData where
  width : ℕ
  height : ℕ
  data : List ℕ
deriving DecidableEq

/-- `pixelToWavelength` from `utils.ts` (lines 455-459):
`Math.round(380 + (pixelPos / (totalBins - 1)) * (750 - 380))`.
JavaScript `Math.round` rounds half up on the nonnegative inputs that
occur here, as does Mathlib's `round` (`round x = ⌊x + 1/2⌋`). -/
def pixelToWavelength (pixelPos totalBins : ℕ) : ℤ :=
  round ((380 : ℚ) + ((pixelPos : ℚ) / ((totalBins : ℚ) - 1)) * ((750 : ℚ) - 380))

/-- `createGaussianKernel` from `utils.ts` (lines 461-473): unnormalized
Gaussian samples at `x = i - mean`, `mean = Math.floor(size/2)`, then
division by their sum (`reduce((a, b) => a + b, 0)` is `foldl (+) 0`). -/
noncomputable def createGaussianKernel (size : ℕ) (sigma : ℝ) : List ℝ :=
  let mean : ℕ := size / 2
  let kernel : List ℝ :=
    (List.range size).map (fun (i : ℕ) =>
      let x : ℝ := (i : ℝ) - (mean : ℝ)
      Real.exp (-(x * x) / (2 * sigma * sigma)))
  let sum : ℝ := kernel.foldl (· + ·) 0
  kernel.map (fun k => k / sum)

/-- The unnormalized Gaussian sample of `createGaussianKernel` at index
`i` (with `mean = ⌊size/2⌋`), named for use in proofs. -/
noncomputable def gauss (size : ℕ) (sigma : ℝ) (i : ℕ) : ℝ :=
  Real.exp (-(((i : ℝ) - ((size / 2 : ℕ) : ℝ)) * ((i : ℝ) - ((size / 2 : ℕ) : ℝ))) /
    (2 * sigma * sigma))

/-- `calculateAbsorbance` from `utils.ts` (lines 376-416).  On a length
mismatch the source logs a warning and returns
`new Array(SPECTRUM_RESOLUTION).fill(0)`; otherwise it maps over the
reference profile with the bin index. -/
noncomputable def calculateAbsorbance (referenceData sampleData : List ℝ) : List ℝ :=
  if referenceData.length ≠ sampleData.length then
    List.replicate SPECTRUM_RESOLUTION 0
  else
    referenceData.mapIdx (fun index r =>
      let s := sampleData.getD index 0
      if r ≤ 0 ∨ s ≤ 0 then 0
      else
        let wavelength : ℝ := 380 + ((index : ℝ) / (SPECTRUM_RESOLUTION : ℝ)) * (750 - 380)
        let correction : ℝ :=
          if 600 < wavelength ∧ wavelength < 700 then
            let distFromCenter : ℝ := |wavelength - 650|
            let maxCorrection : ℝ := 7 / 10
            if distFromCenter < 50 then 1 - maxCorrection * (1 - distFromCenter / 50) else 1
          else 1
        let absorbance : ℝ := |(-Real.logb 10 (r / s)) * correction|
        min 1 absorbance)

/-- The per-bin absorbance value exactly as claim C1 words it: zero when
either profile is nonpositive at the bin, otherwise
`min(1, |-log10(S[i]/R[i]) * c|)` with the region correction `c` equal to
`1` outside the 600-700 nm band and `1 - 0.7*(1 - |wl-650|/50)` inside it
(inside that open band `|wl-650| < 50` holds automatically). -/
noncomputable def claimAbsorbance (referenceData sampleData : List ℝ) (i : ℕ) : ℝ :=
  let r := referenceData.getD i 0
  let s := sampleData.getD i 0
  if r ≤ 0 ∨ s ≤ 0 then 0
  else
    let wavelength : ℝ := 380 + ((i : ℝ) / 100) * 370
    let c : ℝ :=
      if 600 < wavelength ∧ wavelength < 700 then
        1 - (7 / 10) * (1 - |wavelength - 650| / 50)
      else 1
    min 1 |(-Real.logb 10 (s / r)) * c|

/-! ### Embedding of `processImageData` (`utils.ts` lines 62-181)

The nested pixel loop is embedded as a fold of a per-texel step function
over the coordinate list in source order (`y` outer, `x` inner); the
reads and adjusted values of the loop body (lines 87-106) are named
helper functions so that theorems can speak about them. -/

/-- Flat buffer index `i = (y * width + x) * 4` of the loop body
(line 84). -/
def flatIdx (img : ImageData) (p : ℕ × ℕ) : ℕ :=
  (p.1 * img.width + p.2) * 4

/-- `const r = data[i] ?? 0` (line 87). -/
def texelR (img : ImageData) (p : ℕ × ℕ) : ℕ :=
  img.data.getD (flatIdx img p) 0

/-- `const g = data[i + 1] ?? 0` (line 88). -/
def texelG (img : ImageData) (p : ℕ × ℕ) : ℕ :=
  img.data.getD (flatIdx img p + 1) 0

/-- `const b = data[i + 2] ?? 0` (line 89). -/
def texelB (img : ImageData) (p : ℕ × ℕ) : ℕ :=
  img.data.getD (flatIdx img p + 2) 0

/-- The blackout-calibration read `blackoutData[k] ?? 0`, zero when no
calibration frame is present (lines 95-100). -/
def noiseAt (cal : Option ImageData) (k : ℕ) : ℕ :=
  match cal with
  | some c => c.data.getD k 0
  | none => 0

/-- `adjR = Math.max(0, r - noiseR * 0.95)` (line 104). -/
def adjRval (img : ImageData) (cal : Option ImageData) (p : ℕ × ℕ) : ℚ :=
  max 0 ((texelR img p : ℚ) - (noiseAt cal (flatIdx img p) : ℚ) * (95 / 100))

/-- `adjG = Math.max(0, g - noiseG * 1.05)` (line 105). -/
def adjGval (img : ImageData) (cal : Option ImageData) (p : ℕ × ℕ) : ℚ :=
  max 0 ((texelG img p : ℚ) - (noiseAt cal (flatIdx img p + 1) : ℚ) * (105 / 100))

/-- `adjB = Math.max(0, b - noiseB * 0.95)` (line 106). -/
def adjBval (img : ImageData) (cal : Option ImageData) (p : ℕ × ℕ) : ℚ :=
  max 0 ((texelB img p : ℚ) - (noiseAt cal (flatIdx img p + 2) : ℚ) * (95 / 100))

/-- `spectrumIndex = Math.floor((x / width) * SPECTRUM_RESOLUTION)`
(lines 109-110). -/
def spectrumIndexZ (img : ImageData) (x : ℕ) : ℤ :=
  ⌊((x : ℚ) / (img.width : ℚ)) * (SPECTRUM_RESOLUTION : ℚ)⌋

/-- The bin a texel lands in, as claim C4 words it:
`floor((x / W) * N)` (equal to `spectrumIndexZ`, which is nonnegative). -/
def binIdx (img : ImageData) (p : ℕ × ℕ) : ℕ :=
  (spectrumIndexZ img p.2).toNat

/-- The four accumulator arrays of the binning loop (lines 73-76). -/
structure BinAcc where
  red : List ℚ
  green : List ℚ
  blue : List ℚ
  counts : List ℕ
deriving DecidableEq

/-- The accumulators start as length-`SPECTRUM_RESOLUTION` zero arrays. -/
def initAcc : BinAcc :=
  ⟨List.replicate SPECTRUM_RESOLUTION 0, List.replicate SPECTRUM_RESOLUTION 0,
   List.replicate SPECTRUM_RESOLUTION 0, List.replicate SPECTRUM_RESOLUTION 0⟩

/-- Body of the nested pixel loop (lines 84-117): skip dark texels
(`r+g+b < 30`), subtract calibration noise, and accumulate the adjusted
values into the bin `spectrumIndex` when it passes the range check. -/
def texelStep (img : ImageData) (cal : Option ImageData) (acc : BinAcc) (p : ℕ × ℕ) : BinAcc :=
  if texelR img p + texelG img p + texelB img p < 30 then acc
  else
    let spectrumIndex : ℤ := spectrumIndexZ img p.2
    if 0 ≤ spectrumIndex ∧ spectrumIndex < (SPECTRUM_RESOLUTION : ℤ) then
      let jt : ℕ := spectrumIndex.toNat
      { red := acc.red.set jt (acc.red.getD jt 0 + adjRval img cal p)
        green := acc.green.set jt (acc.green.getD jt 0 + adjGval img cal p)
        blue := acc.blue.set jt (acc.blue.getD jt 0 + adjBval img cal p)
        counts := acc.counts.set jt (acc.counts.getD jt 0 + 1) }
    else acc

/-- The pixel coordinates `(y, x)` in the iteration order of the nested
loops of lines 82-83 (`y` outer, `x` inner). -/
def coordList (width height : ℕ) : List (ℕ × ℕ) :=
  (List.range height).flatMap (fun y => (List.range width).map (fun x => (y, x)))

/-- The binning loop of lines 82-119 as a fold over all pixel
coordinates. -/
def binAccum (img : ImageData) (cal : Option ImageData) : BinAcc :=
  (coordList img.width img.height).foldl (texelStep img cal) initAcc

/-- The channel-combining loop (lines 122-155): per-bin averages and the
wavelength-region weight table, `0` for empty bins. -/
def combinePhase (acc : BinAcc) : List ℚ :=
  (List.range SPECTRUM_RESOLUTION).map (fun (i : ℕ) =>
    if 0 < acc.counts.getD i 0 then
      let avgR : ℚ := acc.red.getD i 0 / (acc.counts.getD i 0 : ℚ)
      let avgG : ℚ := acc.green.getD i 0 / (acc.counts.getD i 0 : ℚ)
      let avgB : ℚ := acc.blue.getD i 0 / (acc.counts.getD i 0 : ℚ)
      let wavelength : ℚ := 380 + ((i : ℚ) / (SPECTRUM_RESOLUTION : ℚ)) * (750 - 380)
      if wavelength < 490 then
        avgR * 0 + avgG * (2 / 10) + avgB * 1
      else if wavelength < 580 then
        avgR * (2 / 10) + avgG * (7 / 10) + avgB * (2 / 10)
      else
        avgR * (8 / 10) + avgG * (2 / 10) + avgB * 0
    else 0)

/-- The Gaussian smoothing loop (lines 157-178): a 5-tap kernel
(`createGaussianKernel 5 1`), taps outside `[0, 99]` dropped and the
remaining tap weights renormalized; `k` runs over `-2..2`, embedded as
`kk - 2` for `kk` in `0..4`. -/
noncomputable def smoothPhase (intensities : List ℝ) : List ℝ :=
  let kernel := createGaussianKernel 5 1
  (List.range SPECTRUM_RESOLUTION).map (fun (i : ℕ) =>
    let sw : ℝ × ℝ :=
      (List.range 5).foldl (fun sw (kk : ℕ) =>
        if 0 ≤ (i : ℤ) + ((kk : ℤ) - 2) ∧
            (i : ℤ) + ((kk : ℤ) - 2) < (SPECTRUM_RESOLUTION : ℤ) then
          (sw.1 + intensities.getD ((i : ℤ) + ((kk : ℤ) - 2)).toNat 0 * kernel.getD kk 0,
           sw.2 + kernel.getD kk 0)
        else sw) (0, 0)
    if 0 < sw.2 then sw.1 / sw.2 else 0)

/-- `processImageData` from `utils.ts` (lines 62-181): binning, channel
combination, then Gaussian smoothing.  (The `!imageData?.data` null guard
of lines 67-70 has no counterpart here because the embedded `ImageData`
always carries a buffer.) -/
noncomputable def processImageData (img : ImageData) (cal : Option ImageData) : List ℝ :=
  smoothPhase ((combinePhase (binAccum img cal)).map (fun q => ((q : ℚ) : ℝ)))

/-- Whether a texel is kept and lands in bin `j`, as claim C4 words it:
kept iff `r+g+b ≥ 30`, binned at `floor((x/W)*N)`. -/
def contributes (img : ImageData) (j : ℕ) (p : ℕ × ℕ) : Bool :=
  decide (30 ≤ texelR img p + texelG img p + texelB img p) && decide (binIdx img p = j)

/-- Concrete 1x1 pixel block used in counterexamples/witnesses. -/
def imgA : ImageData := ⟨1, 1, [40, 40, 40, 255]⟩

/-- A calibration block with matching 1x1 dimensions (all-zero bytes). -/
def calMatched : ImageData := ⟨1, 1, List.replicate 4 0⟩

/-- A calibration block of mismatched width 2 (all-zero bytes). -/
def calWide : ImageData := ⟨2, 1, List.replicate 8 0⟩

/-- Concrete 2x1 pixel block used in witnesses. -/
def imgW : ImageData := ⟨2, 1, [40, 0, 0, 255, 0, 50, 0, 255]⟩

/-! ### Embedding of the peak detector of `drawAbsorbanceLine`
(absorbance view component, lines 1305-1503)

`drawAbsorbanceLine` draws the absorbance curve and then detects peaks
on it; only the data flow that determines the returned peak list is
embedded (canvas drawing calls are I/O with no influence on it). -/

/-- One entry of the `points` array (lines 1334, 1361-1367, 1387-1393). -/
structure AbsPoint where
  x : ℝ
  y : ℝ
  value : ℝ
  index : ℕ
  wavelength : ℤ

instance : Inhabited AbsPoint := ⟨⟨0, 0, 0, 0, 0⟩⟩

/-- One entry of the returned `peaks` array (lines 1491-1496). -/
structure Peak where
  x : ℝ
  y : ℝ
  value : ℝ
  wavelength : ℤ

/-- `peakThresholdBlue = 0.05` (line 1329). -/
noncomputable def peakThresholdBlue : ℝ := 5 / 100

/-- `peakThresholdGreen = 0.05` (line 1330). -/
noncomputable def peakThresholdGreen : ℝ := 5 / 100

/-- `peakThresholdRed = 0.05` (line 1331). -/
noncomputable def peakThresholdRed : ℝ := 5 / 100

/-- `peakProximity = 25` (line 1332). -/
noncomputable def peakProximity : ℝ := 25

/-- The `absToY` helper (lines 1342-1347): clamp to `[0, 1]`, scale by
`graphHeight / maxAbsorbance`, measure down from `zeroY`. -/
noncomputable def absToY (maxAbsorbance zeroY graphHeight a : ℝ) : ℝ :=
  zeroY - (max 0 (min 1 a) / maxAbsorbance) * graphHeight

/-- The `points` array (lines 1349-1394): for every index `x` of the
profile, the clamped magnitude `min(maxAbsorbance, |data[x]|)`, the
rendered coordinates (margins: left 40, right 20, top 30, bottom 60;
`xScale = (displayWidth - 60)/(n - 1)`), and the mapped wavelength. -/
noncomputable def absPoints (data : List ℝ)
    (displayWidth displayHeight maxAbsorbance zeroY : ℝ) : List AbsPoint :=
  (List.range data.length).map (fun (i : ℕ) =>
    { x := 40 + (i : ℝ) * ((displayWidth - 40 - 20) / ((data.length : ℝ) - 1))
      y := absToY maxAbsorbance zeroY (displayHeight - 30 - 60)
        (min maxAbsorbance |data.getD i 0|)
      value := min maxAbsorbance |data.getD i 0|
      index := i
      wavelength := pixelToWavelength i data.length })

/-- The moving-average pass (lines 1414-1448): window `j` from
`max(0, i-2)` to `min(n-1, i+2)` inclusive, value replaced by the window
average; the source pushes a smoothed point only when the window count
is positive (which always holds for a valid index). -/
noncomputable def smoothedPoints (points : List AbsPoint) : List AbsPoint :=
  (List.range points.length).filterMap (fun (i : ℕ) =>
    if 0 < (List.range' (i - 2) (min (points.length - 1) (i + 2) + 1 - (i - 2))).length then
      some { points.getD i default with
        value := ((List.range' (i - 2) (min (points.length - 1) (i + 2) + 1 - (i - 2))).map
            (fun j => (points.getD j default).value)).sum /
          ((List.range' (i - 2) (min (points.length - 1) (i + 2) + 1 - (i - 2))).length : ℝ) }
    else none)

/-- The peak-detection fold (lines 1451-1500): `i` runs from 2 to
`n - 3` in order; `i` is a candidate iff its smoothed value strictly
exceeds both neighbors on each side and the wavelength-region threshold;
a candidate is pushed iff its rendered x-coordinate is farther than
`peakProximity` from every already-pushed peak. -/
noncomputable def detectPeaksFold (sp : List AbsPoint) : List Peak :=
  (List.range' 2 (sp.length - 4)).foldl (fun peaks (i : ℕ) =>
    if (sp.getD i default).value > (sp.getD (i - 1) default).value ∧
        (sp.getD i default).value > (sp.getD (i - 2) default).value ∧
        (sp.getD i default).value > (sp.getD (i + 1) default).value ∧
        (sp.getD i default).value > (sp.getD (i + 2) default).value ∧
        (sp.getD i default).value >
          (if (sp.getD i default).wavelength < 490 then peakThresholdBlue
           else if (sp.getD i default).wavelength < 580 then peakThresholdGreen
           else peakThresholdRed) then
      if ∀ peak ∈ peaks, peakProximity < |peak.x - (sp.getD i default).x| then
        peaks ++ [{ x := (sp.getD i default).x, y := (sp.getD i default).y,
                    value := (sp.getD i default).value,
                    wavelength := (sp.getD i default).wavelength }]
      else peaks
    else peaks) []

/-- The peak list computed by `drawAbsorbanceLine` (the `minAbsorbance`
parameter is accepted and unused by the peak logic, as in the source). -/
noncomputable def detectPeaks (data : List ℝ)
    (displayWidth displayHeight minAbsorbance maxAbsorbance zeroY : ℝ) : List Peak :=
  detectPeaksFold (smoothedPoints (absPoints data displayWidth displayHeight
    maxAbsorbance zeroY))

/-- Claim C7's acceptance process, following its wording: candidates are
scanned in index order (left to right); an index is accepted iff its
smoothed value strictly exceeds its immediate and second neighbors on
both sides and the region threshold — `0.05` in all three wavelength
regions — and its rendered x-coordinate is more than 25 horizontal
pixels from every already-accepted peak. -/
noncomputable def claimPeaks (sp : List AbsPoint) : List Peak :=
  (List.range' 2 (sp.length - 4)).foldl (fun peaks (i : ℕ) =>
    if ((sp.getD i default).value > (sp.getD (i - 1) default).value ∧
        (sp.getD i default).value > (sp.getD (i - 2) default).value ∧
        (sp.getD i default).value > (sp.getD (i + 1) default).value ∧
        (sp.getD i default).value > (sp.getD (i + 2) default).value ∧
        (sp.getD i default).value > 5 / 100) ∧
        (∀ peak ∈ peaks, (25 : ℝ) < |peak.x - (sp.getD i default).x|) then
      peaks ++ [{ x := (sp.getD i default).x, y := (sp.getD i default).y,
                  value := (sp.getD i default).value,
                  wavelength := (sp.getD i default).wavelength }]
    else peaks) []

/-! ### Generic helper lemmas -/

lemma getD_map_range {α : Type*} (f : ℕ → α) (d : α) {i n : ℕ} (h : i < n) :
    ((List.range n).map f).getD i d = f i := by
  rw [List.getD_eq_getElem?_getD, List.getElem?_map, List.getElem?_range h]
  rfl

lemma getD_mapIdx {α : Type*} (l : List α) (f : ℕ → α → α) (d : α) {i : ℕ}
    (h : i < l.length) : (l.mapIdx f).getD i d = f i (l.getD i d) := by
  rw [List.getD_eq_getElem?_getD, List.getD_eq_getElem?_getD, List.mapIdx_eq_enum_map,
    List.getElem?_map, List.getElem?_enum]
  cases h' : l[i]? with
  | none => rw [List.getElem?_eq_none_iff] at h'; omega
  | some a => simp [Function.uncurry]

lemma sum_map_div (l : List ℝ) (c : ℝ) : (l.map (fun k => k / c)).sum = l.sum / c := by
  induction l with
  | nil => simp
  | cons a t ih => simp [ih, add_div]

lemma getD_set_self {α : Type*} (l : List α) (k : ℕ) (a d : α) (h : k < l.length) :
    (l.set k a).getD k d = a := by
  rw [List.getD_eq_getElem?_getD, List.getElem?_set]
  simp [h]

lemma getD_set_ne {α : Type*} (l : List α) (k m : ℕ) (a d : α) (h : k ≠ m) :
    (l.set k a).getD m d = l.getD m d := by
  rw [List.getD_eq_getElem?_getD, List.getElem?_set, if_neg h, ← List.getD_eq_getElem?_getD]

lemma getD_replicate_self {α : Type*} (n k : ℕ) (a : α) :
    (List.replicate n a).getD k a = a := by
  rw [List.getD_eq_getElem?_getD, List.getElem?_replicate]
  split <;> rfl

lemma round_bounds_380_750 {x : ℚ} (hlo : (380 : ℚ) ≤ x) (hhi : x ≤ 750) :
    (380 : ℤ) ≤ round x ∧ round x ≤ 750 := by
  rw [round_eq]
  constructor
  · calc (380 : ℤ) = ⌊(380 : ℚ) + 1 / 2⌋ := by norm_num
      _ ≤ ⌊x + 1 / 2⌋ := Int.floor_le_floor (by linarith)
  · calc ⌊x + 1 / 2⌋ ≤ ⌊(750 : ℚ) + 1 / 2⌋ := Int.floor_le_floor (by linarith)
      _ = 750 := by norm_num

lemma mem_coordList {w h : ℕ} {p : ℕ × ℕ} :
    p ∈ coordList w h ↔ p.1 < h ∧ p.2 < w := by
  unfold coordList
  constructor
  · intro hp
    rcases List.mem_flatMap.mp hp with ⟨y, hy, hmem⟩
    rcases List.mem_map.mp hmem with ⟨x, hx, rfl⟩
    exact ⟨List.mem_range.mp hy, List.mem_range.mp hx⟩
  · rcases p with ⟨y, x⟩
    rintro ⟨h1, h2⟩
    exact List.mem_flatMap.mpr
      ⟨y, List.mem_range.mpr h1, List.mem_map.mpr ⟨x, List.mem_range.mpr h2, rfl⟩⟩

/-! ### Helper lemmas about the pipeline -/

lemma gaussSum_pos (size : ℕ) (sigma : ℝ) (hne : size ≠ 0) :
    0 < ((List.range size).map (gauss size sigma)).sum := by
  refine List.sum_pos _ (fun x hx => ?_) ?_
  · rcases List.mem_map.mp hx with ⟨i, _, rfl⟩
    exact Real.exp_pos _
  · simp [hne]

lemma createGaussianKernel_eq (size : ℕ) (sigma : ℝ) :
    createGaussianKernel size sigma =
      (List.range size).map
        (fun i => gauss size sigma i / ((List.range size).map (gauss size sigma)).sum) := by
  simp only [createGaussianKernel, ← List.sum_eq_foldl, List.map_map]
  rfl

lemma createGaussianKernel_getD_nonneg (size : ℕ) (sigma : ℝ) (k : ℕ) :
    0 ≤ (createGaussianKernel size sigma).getD k 0 := by
  rw [createGaussianKernel_eq]
  by_cases hk : k < size
  · rw [getD_map_range _ _ hk]
    have hne : size ≠ 0 := by omega
    exact div_nonneg (Real.exp_pos _).le (gaussSum_pos size sigma hne).le
  · rw [List.getD_eq_default]
    simp [List.length_map, List.length_range]
    omega

lemma texelStep_noise_congr (img : ImageData) (c₁ c₂ : Option ImageData)
    (h : ∀ k, noiseAt c₁ k = noiseAt c₂ k) :
    texelStep img c₁ = texelStep img c₂ := by
  funext acc p
  simp only [texelStep, adjRval, adjGval, adjBval, h]

lemma getD_set_eq_if {α : Type*} (l : List α) (k j : ℕ) (w d : α) (hk : k < l.length) :
    (l.set k w).getD j d = if k = j then w else l.getD j d := by
  by_cases h : k = j
  · subst h
    rw [if_pos rfl, getD_set_self _ _ _ _ hk]
  · rw [if_neg h, getD_set_ne _ _ _ _ _ h]

lemma texelStep_length (img : ImageData) (cal : Option ImageData) (acc : BinAcc) (p : ℕ × ℕ) :
    (texelStep img cal acc p).red.length = acc.red.length ∧
    (texelStep img cal acc p).green.length = acc.green.length ∧
    (texelStep img cal acc p).blue.length = acc.blue.length ∧
    (texelStep img cal acc p).counts.length = acc.counts.length := by
  simp only [texelStep]
  split
  · exact ⟨rfl, rfl, rfl, rfl⟩
  · split
    · exact ⟨List.length_set _ _ _, List.length_set _ _ _, List.length_set _ _ _,
        List.length_set _ _ _⟩
    · exact ⟨rfl, rfl, rfl, rfl⟩

lemma texelStep_getD (img : ImageData) (cal : Option ImageData) (acc : BinAcc) (p : ℕ × ℕ)
    (hx : p.2 < img.width) {j : ℕ} (hj : j < SPECTRUM_RESOLUTION)
    (hlr : acc.red.length = SPECTRUM_RESOLUTION) (hlg : acc.green.length = SPECTRUM_RESOLUTION)
    (hlb : acc.blue.length = SPECTRUM_RESOLUTION)
    (hlc : acc.counts.length = SPECTRUM_RESOLUTION) :
    (texelStep img cal acc p).red.getD j 0 =
      acc.red.getD j 0 + (if contributes img j p then adjRval img cal p else 0) ∧
    (texelStep img cal acc p).green.getD j 0 =
      acc.green.getD j 0 + (if contributes img j p then adjGval img cal p else 0) ∧
    (texelStep img cal acc p).blue.getD j 0 =
      acc.blue.getD j 0 + (if contributes img j p then adjBval img cal p else 0) ∧
    (texelStep img cal acc p).counts.getD j 0 =
      acc.counts.getD j 0 + (if contributes img j p then 1 else 0) := by
  by_cases hdark : texelR img p + texelG img p + texelB img p < 30
  · have hcon : contributes img j p = false := by
      unfold contributes
      have h30 : ¬ 30 ≤ texelR img p + texelG img p + texelB img p := by omega
      simp [h30]
    simp only [texelStep]
    rw [if_pos hdark]
    simp [hcon]
  · have hw : 0 < img.width := lt_of_le_of_lt (Nat.zero_le p.2) hx
    have h0 : 0 ≤ spectrumIndexZ img p.2 := by
      unfold spectrumIndexZ
      apply Int.floor_nonneg.mpr
      positivity
    have hRpos : (0 : ℚ) < (SPECTRUM_RESOLUTION : ℚ) := by
      norm_num [SPECTRUM_RESOLUTION]
    have hlt : spectrumIndexZ img p.2 < (SPECTRUM_RESOLUTION : ℤ) := by
      unfold spectrumIndexZ
      apply Int.floor_lt.mpr
      have hwQ : (0 : ℚ) < (img.width : ℚ) := by exact_mod_cast hw
      have hxQ : ((p.2 : ℚ)) / (img.width : ℚ) < 1 :=
        (div_lt_one hwQ).mpr (by exact_mod_cast hx)
      push_cast
      nlinarith [hxQ, hRpos]
    have hklt : (spectrumIndexZ img p.2).toNat < SPECTRUM_RESOLUTION :=
      (Int.toNat_lt h0).mpr hlt
    have hcon : contributes img j p = decide ((spectrumIndexZ img p.2).toNat = j) := by
      unfold contributes binIdx
      have h30 : (30 : ℕ) ≤ texelR img p + texelG img p + texelB img p := by omega
      simp [h30]
    simp only [texelStep]
    rw [if_neg hdark, if_pos ⟨h0, hlt⟩]
    refine ⟨?_, ?_, ?_, ?_⟩ <;> dsimp only
    · rw [getD_set_eq_if _ _ _ _ _ (by rw [hlr]; exact hklt)]
      by_cases hjj : (spectrumIndexZ img p.2).toNat = j
      · rw [if_pos hjj, hjj, if_pos (by rw [hcon]; simp [hjj])]
      · rw [if_neg hjj, if_neg (by rw [hcon]; simp [hjj]), add_zero]
    · rw [getD_set_eq_if _ _ _ _ _ (by rw [hlg]; exact hklt)]
      by_cases hjj : (spectrumIndexZ img p.2).toNat = j
      · rw [if_pos hjj, hjj, if_pos (by rw [hcon]; simp [hjj])]
      · rw [if_neg hjj, if_neg (by rw [hcon]; simp [hjj]), add_zero]
    · rw [getD_set_eq_if _ _ _ _ _ (by rw [hlb]; exact hklt)]
      by_cases hjj : (spectrumIndexZ img p.2).toNat = j
      · rw [if_pos hjj, hjj, if_pos (by rw [hcon]; simp [hjj])]
      · rw [if_neg hjj, if_neg (by rw [hcon]; simp [hjj]), add_zero]
    · rw [getD_set_eq_if _ _ _ _ _ (by rw [hlc]; exact hklt)]
      by_cases hjj : (spectrumIndexZ img p.2).toNat = j
      · rw [if_pos hjj, hjj, if_pos (by rw [hcon]; simp [hjj])]
      · rw [if_neg hjj, if_neg (by rw [hcon]; simp [hjj]), add_zero]

lemma foldl_texelStep_spec (img : ImageData) (cal : Option ImageData) {j : ℕ}
    (hj : j < SPECTRUM_RESOLUTION) :
    ∀ (l : List (ℕ × ℕ)), (∀ p ∈ l, p.2 < img.width) → ∀ (acc : BinAcc),
      acc.red.length = SPECTRUM_RESOLUTION → acc.green.length = SPECTRUM_RESOLUTION →
      acc.blue.length = SPECTRUM_RESOLUTION → acc.counts.length = SPECTRUM_RESOLUTION →
      (l.foldl (texelStep img cal) acc).red.getD j 0 =
        acc.red.getD j 0 + ((l.filter (contributes img j)).map (adjRval img cal)).sum ∧
      (l.foldl (texelStep img cal) acc).green.getD j 0 =
        acc.green.getD j 0 + ((l.filter (contributes img j)).map (adjGval img cal)).sum ∧
      (l.foldl (texelStep img cal) acc).blue.getD j 0 =
        acc.blue.getD j 0 + ((l.filter (contributes img j)).map (adjBval img cal)).sum ∧
      (l.foldl (texelStep img cal) acc).counts.getD j 0 =
        acc.counts.getD j 0 + (l.filter (contributes img j)).length := by
  intro l
  induction l with
  | nil =>
    intro _ acc _ _ _ _
    simp
  | cons p t ih =>
    intro hmem acc hlr hlg hlb hlc
    have hx : p.2 < img.width := hmem p (List.mem_cons_self p t)
    have hstep := texelStep_getD img cal acc p hx hj hlr hlg hlb hlc
    have hlen := texelStep_length img cal acc p
    have ht := ih (fun q hq => hmem q (List.mem_cons_of_mem p hq)) (texelStep img cal acc p)
      (by rw [hlen.1, hlr]) (by rw [hlen.2.1, hlg]) (by rw [hlen.2.2.1, hlb])
      (by rw [hlen.2.2.2, hlc])
    simp only [List.foldl_cons, List.filter_cons]
    by_cases hc : contributes img j p
    · rw [if_pos hc]
      simp only [List.map_cons, List.sum_cons, List.length_cons]
      refine ⟨?_, ?_, ?_, ?_⟩
      · rw [ht.1, hstep.1, if_pos hc, add_assoc]
      · rw [ht.2.1, hstep.2.1, if_pos hc, add_assoc]
      · rw [ht.2.2.1, hstep.2.2.1, if_pos hc, add_assoc]
      · rw [ht.2.2.2, hstep.2.2.2, if_pos hc]
        omega
    · rw [if_neg hc]
      refine ⟨?_, ?_, ?_, ?_⟩
      · rw [ht.1, hstep.1, if_neg hc, add_zero]
      · rw [ht.2.1, hstep.2.1, if_neg hc, add_zero]
      · rw [ht.2.2.1, hstep.2.2.1, if_neg hc, add_zero]
      · rw [ht.2.2.2, hstep.2.2.2, if_neg hc, add_zero]

lemma binAccum_length (img : ImageData) (cal : Option ImageData) :
    (binAccum img cal).red.length = SPECTRUM_RESOLUTION ∧
    (binAccum img cal).green.length = SPECTRUM_RESOLUTION ∧
    (binAccum img cal).blue.length = SPECTRUM_RESOLUTION ∧
    (binAccum img cal).counts.length = SPECTRUM_RESOLUTION := by
  unfold binAccum
  have key : ∀ (l : List (ℕ × ℕ)) (acc : BinAcc),
      (l.foldl (texelStep img cal) acc).red.length = acc.red.length ∧
      (l.foldl (texelStep img cal) acc).green.length = acc.green.length ∧
      (l.foldl (texelStep img cal) acc).blue.length = acc.blue.length ∧
      (l.foldl (texelStep img cal) acc).counts.length = acc.counts.length := by
    intro l
    induction l with
    | nil => intro acc; exact ⟨rfl, rfl, rfl, rfl⟩
    | cons p t ih =>
      intro acc
      have h1 := texelStep_length img cal acc p
      have h2 := ih (texelStep img cal acc p)
      simp only [List.foldl_cons]
      exact ⟨h2.1.trans h1.1, h2.2.1.trans h1.2.1, h2.2.2.1.trans h1.2.2.1,
        h2.2.2.2.trans h1.2.2.2⟩
  have h := key (coordList img.width img.height) initAcc
  simpa [initAcc] using h

lemma binAccum_getD_nonneg (img : ImageData) (cal : Option ImageData) (j : ℕ) :
    0 ≤ (binAccum img cal).red.getD j 0 ∧ 0 ≤ (binAccum img cal).green.getD j 0 ∧
    0 ≤ (binAccum img cal).blue.getD j 0 := by
  by_cases hj : j < SPECTRUM_RESOLUTION
  · unfold binAccum
    have h := foldl_texelStep_spec img cal hj (coordList img.width img.height)
      (fun p hp => (mem_coordList.mp hp).2) initAcc
      (by simp [initAcc]) (by simp [initAcc]) (by simp [initAcc]) (by simp [initAcc])
    have hz1 : initAcc.red.getD j 0 = 0 := getD_replicate_self _ _ _
    have hz2 : initAcc.green.getD j 0 = 0 := getD_replicate_self _ _ _
    have hz3 : initAcc.blue.getD j 0 = 0 := getD_replicate_self _ _ _
    refine ⟨?_, ?_, ?_⟩
    · rw [h.1, hz1, zero_add]
      refine List.sum_nonneg fun x hx => ?_
      rcases List.mem_map.mp hx with ⟨p, _, rfl⟩
      exact le_max_left 0 _
    · rw [h.2.1, hz2, zero_add]
      refine List.sum_nonneg fun x hx => ?_
      rcases List.mem_map.mp hx with ⟨p, _, rfl⟩
      exact le_max_left 0 _
    · rw [h.2.2.1, hz3, zero_add]
      refine List.sum_nonneg fun x hx => ?_
      rcases List.mem_map.mp hx with ⟨p, _, rfl⟩
      exact le_max_left 0 _
  · have hlen := binAccum_length img cal
    refine ⟨?_, ?_, ?_⟩
    · rw [List.getD_eq_default _ _ (by rw [hlen.1]; omega)]
    · rw [List.getD_eq_default _ _ (by rw [hlen.2.1]; omega)]
    · rw [List.getD_eq_default _ _ (by rw [hlen.2.2.1]; omega)]

lemma combinePhase_length (acc : BinAcc) :
    (combinePhase acc).length = SPECTRUM_RESOLUTION := by
  simp [combinePhase]

lemma combinePhase_getD_nonneg (acc : BinAcc)
    (hr : ∀ j, 0 ≤ acc.red.getD j 0) (hg : ∀ j, 0 ≤ acc.green.getD j 0)
    (hb : ∀ j, 0 ≤ acc.blue.getD j 0) (j : ℕ) :
    0 ≤ (combinePhase acc).getD j 0 := by
  by_cases hj : j < SPECTRUM_RESOLUTION
  · simp only [combinePhase, getD_map_range _ _ hj]
    by_cases hc : 0 < acc.counts.getD j 0
    · rw [if_pos hc]
      have hcQ : (0 : ℚ) ≤ (acc.counts.getD j 0 : ℚ) := by positivity
      split_ifs with h1 h2 <;>
        exact add_nonneg
          (add_nonneg (mul_nonneg (div_nonneg (hr j) hcQ) (by norm_num))
            (mul_nonneg (div_nonneg (hg j) hcQ) (by norm_num)))
          (mul_nonneg (div_nonneg (hb j) hcQ) (by norm_num))
    · rw [if_neg hc]
  · rw [List.getD_eq_default _ _ (by rw [combinePhase_length]; omega)]

lemma getD_map_ratCast (l : List ℚ) (k : ℕ) :
    (l.map (fun q => ((q : ℚ) : ℝ))).getD k 0 = ((l.getD k 0 : ℚ) : ℝ) := by
  rw [List.getD_eq_getElem?_getD, List.getD_eq_getElem?_getD, List.getElem?_map]
  cases l[k]? <;> simp

lemma smoothPhase_length (l : List ℝ) :
    (smoothPhase l).length = SPECTRUM_RESOLUTION := by
  simp [smoothPhase]

lemma smoothPhase_getD_nonneg (l : List ℝ) (hl : ∀ k, 0 ≤ l.getD k 0) (j : ℕ) :
    0 ≤ (smoothPhase l).getD j 0 := by
  by_cases hj : j < SPECTRUM_RESOLUTION
  · simp only [smoothPhase, getD_map_range _ _ hj]
    have hker : ∀ kk, 0 ≤ (createGaussianKernel 5 1).getD kk 0 :=
      fun kk => createGaussianKernel_getD_nonneg 5 1 kk
    have key : ∀ (ks : List ℕ) (sw : ℝ × ℝ), 0 ≤ sw.1 → 0 ≤ sw.2 →
        0 ≤ (ks.foldl (fun sw (kk : ℕ) =>
          if 0 ≤ (j : ℤ) + ((kk : ℤ) - 2) ∧
              (j : ℤ) + ((kk : ℤ) - 2) < (SPECTRUM_RESOLUTION : ℤ) then
            (sw.1 + l.getD ((j : ℤ) + ((kk : ℤ) - 2)).toNat 0 *
              (createGaussianKernel 5 1).getD kk 0,
             sw.2 + (createGaussianKernel 5 1).getD kk 0)
          else sw) sw).1 ∧
        0 ≤ (ks.foldl (fun sw (kk : ℕ) =>
          if 0 ≤ (j : ℤ) + ((kk : ℤ) - 2) ∧
              (j : ℤ) + ((kk : ℤ) - 2) < (SPECTRUM_RESOLUTION : ℤ) then
            (sw.1 + l.getD ((j : ℤ) + ((kk : ℤ) - 2)).toNat 0 *
              (createGaussianKernel 5 1).getD kk 0,
             sw.2 + (createGaussianKernel 5 1).getD kk 0)
          else sw) sw).2 := by
      intro ks
      induction ks with
      | nil => intro sw h1 h2; exact ⟨h1, h2⟩
      | cons a t ih =>
        intro sw h1 h2
        simp only [List.foldl_cons]
        apply ih
        · split
          · exact add_nonneg h1 (mul_nonneg (hl _) (hker a))
          · exact h1
        · split
          · exact add_nonneg h2 (hker a)
          · exact h2
    have hk := key (List.range 5) (0, 0) le_rfl le_rfl
    split_ifs with h
    · exact div_nonneg hk.1 (le_of_lt h)
    · exact le_rfl
  · rw [List.getD_eq_default _ _ (by rw [smoothPhase_length]; omega)]

lemma texelStep_agree (w h : ℕ) (d₁ d₂ : List ℕ) (c₁ c₂ : Option ImageData)
    (hd : ∀ k, k < 4 * (w * h) → k % 4 ≠ 3 → d₁.getD k 0 = d₂.getD k 0)
    (hc : ∀ k, k < 4 * (w * h) → k % 4 ≠ 3 → noiseAt c₁ k = noiseAt c₂ k)
    (acc : BinAcc) (p : ℕ × ℕ) (hp1 : p.1 < h) (hp2 : p.2 < w) :
    texelStep ⟨w, h, d₁⟩ c₁ acc p = texelStep ⟨w, h, d₂⟩ c₂ acc p := by
  have hm : p.1 * w + p.2 < w * h := by
    calc p.1 * w + p.2 < p.1 * w + w := by omega
      _ = (p.1 + 1) * w := by ring
      _ ≤ h * w := Nat.mul_le_mul_right w (by omega)
      _ = w * h := Nat.mul_comm h w
  have e0 : d₁.getD ((p.1 * w + p.2) * 4) 0 = d₂.getD ((p.1 * w + p.2) * 4) 0 :=
    hd _ (by omega) (by omega)
  have e1 : d₁.getD ((p.1 * w + p.2) * 4 + 1) 0 = d₂.getD ((p.1 * w + p.2) * 4 + 1) 0 :=
    hd _ (by omega) (by omega)
  have e2 : d₁.getD ((p.1 * w + p.2) * 4 + 2) 0 = d₂.getD ((p.1 * w + p.2) * 4 + 2) 0 :=
    hd _ (by omega) (by omega)
  have n0 : noiseAt c₁ ((p.1 * w + p.2) * 4) = noiseAt c₂ ((p.1 * w + p.2) * 4) :=
    hc _ (by omega) (by omega)
  have n1 : noiseAt c₁ ((p.1 * w + p.2) * 4 + 1) = noiseAt c₂ ((p.1 * w + p.2) * 4 + 1) :=
    hc _ (by omega) (by omega)
  have n2 : noiseAt c₁ ((p.1 * w + p.2) * 4 + 2) = noiseAt c₂ ((p.1 * w + p.2) * 4 + 2) :=
    hc _ (by omega) (by omega)
  simp only [texelStep, adjRval, adjGval, adjBval, texelR, texelG, texelB, flatIdx,
    spectrumIndexZ]
  rw [e0, e1, e2, n0, n1, n2]

lemma filterMap_eq_map_of_forall {α β : Type*} (l : List α) (c : α → Prop) [DecidablePred c]
    (g : α → β) (h : ∀ a ∈ l, c a) :
    l.filterMap (fun a => if c a then some (g a) else none) = l.map g := by
  induction l with
  | nil => rfl
  | cons a t ih =>
    simp only [List.filterMap_cons, if_pos (h a (List.mem_cons_self a t)), List.map_cons]
    rw [ih (fun b hb => h b (List.mem_cons_of_mem a hb))]

lemma smoothedPoints_eq_map (pts : List AbsPoint) :
    smoothedPoints pts = (List.range pts.length).map (fun (i : ℕ) =>
      { pts.getD i default with
        value := ((List.range' (i - 2) (min (pts.length - 1) (i + 2) + 1 - (i - 2))).map
            (fun j => (pts.getD j default).value)).sum /
          ((List.range' (i - 2) (min (pts.length - 1) (i + 2) + 1 - (i - 2))).length : ℝ) }) := by
  unfold smoothedPoints
  apply filterMap_eq_map_of_forall
  intro i hi
  have hlt : i < pts.length := List.mem_range.mp hi
  rw [List.length_range']
  omega

lemma smoothedPoints_interior (pts : List AbsPoint) (i : ℕ) (h2 : 2 ≤ i)
    (hn : i + 2 < pts.length) :
    ((smoothedPoints pts).getD i default).value =
      ((pts.getD (i - 2) default).value + (pts.getD (i - 1) default).value +
       (pts.getD i default).value + (pts.getD (i + 1) default).value +
       (pts.getD (i + 2) default).value) / 5 := by
  rw [smoothedPoints_eq_map]
  rw [getD_map_range _ _ (by omega : i < pts.length)]
  have hmin : min (pts.length - 1) (i + 2) = i + 2 := by omega
  rw [hmin]
  have hcount : i + 2 + 1 - (i - 2) = 5 := by omega
  rw [hcount]
  have hr : List.range' (i - 2) 5 = [i - 2, i - 1, i, i + 1, i + 2] := by
    have e1 : i - 2 + 1 = i - 1 := by omega
    have e2 : i - 1 + 1 = i := by omega
    have e3 : i + 1 + 1 = i + 2 := by omega
    simp [List.range'_succ, e1, e2, e3]
  rw [hr]
  simp only [List.map_cons, List.map_nil, List.sum_cons, List.sum_nil, List.length_cons,
    List.length_nil]
  push_cast
  ring

lemma ite_ite_and {α : Type*} (A F : Prop) [Decidable A] [Decidable F] (x y : α) :
    (if A then (if F then x else y) else y) = if A ∧ F then x else y := by
  by_cases hA : A
  · by_cases hF : F
    · rw [if_pos hA, if_pos hF, if_pos ⟨hA, hF⟩]
    · rw [if_pos hA, if_neg hF, if_neg (fun hx => hF hx.2)]
  · rw [if_neg hA, if_neg (fun hx => hA hx.1)]

/-! ### C9: the wavelength mapper -/

/-- C9: for every `N ≥ 2`, `pixelToWavelength` linearly interpolates a bin
index `i ∈ [0, N-1]` onto `[380, 750]` nm inclusive, rounded to the
nearest integer; in particular the two endpoints map to exactly 380 and
750. -/
theorem pixelToWavelength_spec (N : ℕ) (hN : 2 ≤ N) :
    pixelToWavelength 0 N = 380 ∧
    pixelToWavelength (N - 1) N = 750 ∧
    ∀ i, i ≤ N - 1 →
      pixelToWavelength i N = round ((380 : ℚ) + ((i : ℚ) / ((N : ℚ) - 1)) * 370) ∧
      380 ≤ pixelToWavelength i N ∧ pixelToWavelength i N ≤ 750 := by
  have hN1 : (1 : ℕ) ≤ N := by omega
  have hcast : ((N - 1 : ℕ) : ℚ) = (N : ℚ) - 1 := by
    rw [Nat.cast_sub hN1, Nat.cast_one]
  have hNQ : (2 : ℚ) ≤ (N : ℚ) := by exact_mod_cast hN
  have hpos : (0 : ℚ) < (N : ℚ) - 1 := by linarith
  refine ⟨?_, ?_, ?_⟩
  · unfold pixelToWavelength
    norm_num
  · unfold pixelToWavelength
    rw [hcast, div_self hpos.ne']
    norm_num
  · intro i hi
    have harg : pixelToWavelength i N =
        round ((380 : ℚ) + ((i : ℚ) / ((N : ℚ) - 1)) * 370) := by
      unfold pixelToWavelength
      norm_num
    refine ⟨harg, ?_⟩
    have hiQ : (i : ℚ) ≤ (N : ℚ) - 1 := by
      rw [← hcast]; exact_mod_cast hi
    have ht0 : (0 : ℚ) ≤ (i : ℚ) / ((N : ℚ) - 1) :=
      div_nonneg (by positivity) hpos.le
    have ht1 : (i : ℚ) / ((N : ℚ) - 1) ≤ 1 := (div_le_one hpos).mpr hiQ
    have hb := round_bounds_380_750 (x := (380 : ℚ) + ((i : ℚ) / ((N : ℚ) - 1)) * 370)
      (by nlinarith) (by nlinarith)
    rw [harg]
    exact hb

/-- Witness for C9 at `N = 2`. -/
theorem pixelToWavelength_spec_witness :
    2 ≤ 2 ∧
    (pixelToWavelength 0 2 = 380 ∧
     pixelToWavelength (2 - 1) 2 = 750 ∧
     ∀ i, i ≤ 2 - 1 →
       pixelToWavelength i 2 = round ((380 : ℚ) + ((i : ℚ) / ((2 : ℚ) - 1)) * 370) ∧
       380 ≤ pixelToWavelength i 2 ∧ pixelToWavelength i 2 ≤ 750) :=
  ⟨by norm_num, pixelToWavelength_spec 2 (by norm_num)⟩

/-! ### C8: the Gaussian kernel builder -/

/-- C8: for every odd size `k` and `sigma > 0`, `createGaussianKernel`
returns exactly `k` weights proportional to
`exp(-(x-mean)^2 / (2*sigma^2))` at `x = i`, `mean = ⌊k/2⌋`, and the
weights sum to `1` within `1e-9` (they sum to exactly `1` in exact
arithmetic). -/
theorem createGaussianKernel_spec (size : ℕ) (sigma : ℝ)
    (hodd : Odd size) (hs : 0 < sigma) :
    (createGaussianKernel size sigma).length = size ∧
    (∃ c : ℝ, 0 < c ∧ ∀ i, i < size →
      (createGaussianKernel size sigma).getD i 0 =
        c * Real.exp (-(((i : ℝ) - ((size / 2 : ℕ) : ℝ)) ^ 2) / (2 * sigma ^ 2))) ∧
    |(createGaussianKernel size sigma).sum - 1| ≤ 1 / 10 ^ 9 := by
  have hne : size ≠ 0 := hodd.pos.ne'
  have hSpos := gaussSum_pos size sigma hne
  set S : ℝ := ((List.range size).map (gauss size sigma)).sum with hS
  refine ⟨?_, ⟨S⁻¹, inv_pos.mpr hSpos, ?_⟩, ?_⟩
  · rw [createGaussianKernel_eq]; simp
  · intro i hi
    rw [createGaussianKernel_eq]
    rw [getD_map_range (f := fun i => gauss size sigma i / S) (d := (0 : ℝ)) hi]
    have harg : gauss size sigma i =
        Real.exp (-(((i : ℝ) - ((size / 2 : ℕ) : ℝ)) ^ 2) / (2 * sigma ^ 2)) := by
      unfold gauss
      congr 1
      ring
    rw [harg, div_eq_mul_inv, mul_comm]
  · rw [createGaussianKernel_eq]
    have hmap : (List.range size).map (fun i => gauss size sigma i / S) =
        ((List.range size).map (gauss size sigma)).map (fun k => k / S) := by
      rw [List.map_map]
      rfl
    rw [hmap, sum_map_div, ← hS, div_self hSpos.ne']
    norm_num

/-- Witness for C8 at `size = 1`, `sigma = 1`. -/
theorem createGaussianKernel_spec_witness :
    (Odd 1 ∧ (0 : ℝ) < 1) ∧
    ((createGaussianKernel 1 1).length = 1 ∧
     (∃ c : ℝ, 0 < c ∧ ∀ i, i < 1 →
       (createGaussianKernel 1 1).getD i 0 =
         c * Real.exp (-(((i : ℝ) - ((1 / 2 : ℕ) : ℝ)) ^ 2) / (2 * (1 : ℝ) ^ 2))) ∧
     |(createGaussianKernel 1 1).sum - 1| ≤ 1 / 10 ^ 9) :=
  ⟨⟨by decide, by norm_num⟩, createGaussianKernel_spec 1 1 (by decide) (by norm_num)⟩

/-! ### C1: absorbance formula -/

/-- C1: for same-length reference and sample profiles, each output bin is
zero when either profile is nonpositive there, and otherwise equals
`min(1, |-log10(S[i]/R[i]) * c|)` with the claimed 600-700 nm region
correction `c`; the source's `-log10(R[i]/S[i])` coincides with this
under the absolute value. -/
theorem calculateAbsorbance_spec (R S : List ℝ) (hlen : R.length = S.length)
    (i : ℕ) (hi : i < R.length) :
    (calculateAbsorbance R S).getD i 0 = claimAbsorbance R S i := by
  simp only [calculateAbsorbance, claimAbsorbance]
  rw [if_neg (by omega : ¬R.length ≠ S.length)]
  rw [getD_mapIdx R _ 0 hi]
  set r := R.getD i 0 with hr
  set s := S.getD i 0 with hs
  by_cases h : r ≤ 0 ∨ s ≤ 0
  · rw [if_pos h, if_pos h]
  · rw [if_neg h, if_neg h]
    push_neg at h
    obtain ⟨hrpos, hspos⟩ := h
    have hwl : (380 : ℝ) + ((i : ℝ) / (SPECTRUM_RESOLUTION : ℝ)) * (750 - 380) =
        380 + ((i : ℝ) / 100) * 370 := by
      norm_num [SPECTRUM_RESOLUTION]
    rw [hwl]
    set wl : ℝ := 380 + ((i : ℝ) / 100) * 370 with hwldef
    have hcorr :
        (if 600 < wl ∧ wl < 700 then
          if |wl - 650| < 50 then 1 - (7 / 10 : ℝ) * (1 - |wl - 650| / 50) else 1
        else 1) =
        (if 600 < wl ∧ wl < 700 then 1 - (7 / 10 : ℝ) * (1 - |wl - 650| / 50) else 1) := by
      by_cases hband : 600 < wl ∧ wl < 700
      · rw [if_pos hband, if_pos hband,
          if_pos (abs_lt.mpr ⟨by linarith [hband.1], by linarith [hband.2]⟩)]
      · rw [if_neg hband, if_neg hband]
    rw [hcorr]
    congr 1
    have hlog : Real.logb 10 (s / r) = -Real.logb 10 (r / s) := by
      rw [Real.logb_div hspos.ne' hrpos.ne', Real.logb_div hrpos.ne' hspos.ne']
      ring
    rw [hlog, neg_neg, neg_mul, abs_neg]

/-- Witness for C1 on `R = S = [1]` at bin `0`. -/
theorem calculateAbsorbance_spec_witness :
    ([(1 : ℝ)].length = [(1 : ℝ)].length ∧ 0 < [(1 : ℝ)].length) ∧
    (calculateAbsorbance [(1 : ℝ)] [(1 : ℝ)]).getD 0 0 = claimAbsorbance [(1 : ℝ)] [(1 : ℝ)] 0 :=
  ⟨⟨rfl, by simp⟩, calculateAbsorbance_spec [(1 : ℝ)] [(1 : ℝ)] rfl 0 (by simp)⟩

/-! ### C2: behaviour on mismatched profile lengths -/

/-- C2 counterexample: on mismatched lengths `calculateAbsorbance` does
not fail; it returns the all-zero length-100 substitute array. -/
theorem calculateAbsorbance_mismatch_counterexample :
    [(1 : ℝ)].length ≠ [(1 : ℝ), 1].length ∧
    calculateAbsorbance [(1 : ℝ)] [(1 : ℝ), 1] = List.replicate 100 0 := by
  constructor
  · simp
  · unfold calculateAbsorbance
    rw [if_pos (by simp)]
    rfl

/-- C2 amended: for every pair of input arrays of unequal length,
`calculateAbsorbance` returns a fresh all-zero array of length
`SPECTRUM_RESOLUTION = 100` (after logging a console warning) — a
substitute result, not a surfaced error and not a truncated computation. -/
theorem calculateAbsorbance_mismatch (R S : List ℝ) (h : R.length ≠ S.length) :
    calculateAbsorbance R S = List.replicate 100 0 := by
  unfold calculateAbsorbance
  rw [if_pos h]
  rfl

/-- Witness for the amended C2 on lists of lengths 3 and 1. -/
theorem calculateAbsorbance_mismatch_witness :
    [(1 : ℝ), 1, 1].length ≠ [(1 : ℝ)].length ∧
    calculateAbsorbance [(1 : ℝ), 1, 1] [(1 : ℝ)] = List.replicate 100 0 :=
  ⟨by simp, calculateAbsorbance_mismatch _ _ (by simp)⟩

/-! ### C3: mismatched calibration dimensions -/

/-- C3 counterexample: a calibration block of a different width than the
pixel block does not make `processImageData` fail; the call silently
proceeds and (here, with all-zero calibration bytes) returns exactly the
same profile as a call with a correctly-dimensioned calibration block. -/
theorem processImageData_mismatch_counterexample :
    calWide.width ≠ imgA.width ∧
    processImageData imgA (some calWide) = processImageData imgA (some calMatched) := by
  constructor
  · decide
  · have hnoise : ∀ k, noiseAt (some calWide) k = noiseAt (some calMatched) k := by
      intro k
      show calWide.data.getD k 0 = calMatched.data.getD k 0
      show (List.replicate 8 0).getD k 0 = (List.replicate 4 0).getD k 0
      rw [getD_replicate_self, getD_replicate_self]
    unfold processImageData binAccum
    rw [texelStep_noise_congr imgA (some calWide) (some calMatched) hnoise]

/-- C3 amended: `processImageData` performs no dimension check at all on
the calibration frame: the calibration's `width` and `height` fields are
ignored entirely (noise bytes are read from the calibration's flat
buffer at the pixel block's flat index, with missing bytes read as 0),
so a mismatched calibration is silently consumed rather than rejected. -/
theorem processImageData_ignores_calibration_dims (img cal : ImageData) (w h : ℕ) :
    processImageData img (some cal) = processImageData img (some ⟨w, h, cal.data⟩) := by
  unfold processImageData binAccum
  rw [texelStep_noise_congr img (some cal) (some ⟨w, h, cal.data⟩) (fun k => rfl)]

/-! ### C4: the spatial binner -/

/-- C4: for every pixel block and optional calibration block, each bin
`j` of the accumulation loop holds exactly the sums of the adjusted
channel values `max(0, r - noiseR*0.95)`, `max(0, g - noiseG*1.05)`,
`max(0, b - noiseB*0.95)` over the texels that pass the darkness filter
(`r+g+b ≥ 30`) and whose column maps to bin `j = floor((x/W)*N)`, and the
bin's counter holds the number of such texels; discarded texels
contribute to no bin and no count. -/
theorem binAccum_spec (img : ImageData) (cal : Option ImageData) (j : ℕ)
    (hj : j < SPECTRUM_RESOLUTION) :
    (binAccum img cal).red.getD j 0 =
      (((coordList img.width img.height).filter (contributes img j)).map
        (adjRval img cal)).sum ∧
    (binAccum img cal).green.getD j 0 =
      (((coordList img.width img.height).filter (contributes img j)).map
        (adjGval img cal)).sum ∧
    (binAccum img cal).blue.getD j 0 =
      (((coordList img.width img.height).filter (contributes img j)).map
        (adjBval img cal)).sum ∧
    (binAccum img cal).counts.getD j 0 =
      ((coordList img.width img.height).filter (contributes img j)).length := by
  unfold binAccum
  have hmem : ∀ p ∈ coordList img.width img.height, p.2 < img.width :=
    fun p hp => (mem_coordList.mp hp).2
  have h := foldl_texelStep_spec img cal hj (coordList img.width img.height) hmem initAcc
    (by simp [initAcc]) (by simp [initAcc]) (by simp [initAcc]) (by simp [initAcc])
  have hz1 : initAcc.red.getD j 0 = 0 := getD_replicate_self _ _ _
  have hz2 : initAcc.green.getD j 0 = 0 := getD_replicate_self _ _ _
  have hz3 : initAcc.blue.getD j 0 = 0 := getD_replicate_self _ _ _
  have hz4 : initAcc.counts.getD j 0 = 0 := getD_replicate_self _ _ _
  refine ⟨?_, ?_, ?_, ?_⟩
  · rw [h.1, hz1, zero_add]
  · rw [h.2.1, hz2, zero_add]
  · rw [h.2.2.1, hz3, zero_add]
  · rw [h.2.2.2, hz4, zero_add]

/-- Witness for C4 on a concrete 2x1 block with no calibration at bin 0. -/
theorem binAccum_spec_witness :
    0 < SPECTRUM_RESOLUTION ∧
    ((binAccum imgW none).red.getD 0 0 =
      (((coordList imgW.width imgW.height).filter (contributes imgW 0)).map
        (adjRval imgW none)).sum ∧
     (binAccum imgW none).green.getD 0 0 =
      (((coordList imgW.width imgW.height).filter (contributes imgW 0)).map
        (adjGval imgW none)).sum ∧
     (binAccum imgW none).blue.getD 0 0 =
      (((coordList imgW.width imgW.height).filter (contributes imgW 0)).map
        (adjBval imgW none)).sum ∧
     (binAccum imgW none).counts.getD 0 0 =
      ((coordList imgW.width imgW.height).filter (contributes imgW 0)).length) :=
  ⟨by decide, binAccum_spec imgW none 0 (by decide)⟩

/-! ### C5: the channel combiner -/

/-- C5: for every accumulator state, each bin with a positive count is
combined as the weighted sum of the three per-channel averages
(`sum/count`), with the weight triple selected by the bin's mapped
wavelength `380 + (i/N)*370`: below 490 nm blue 1.0 / green 0.2 /
red 0.0, in [490, 580) blue 0.2 / green 0.7 / red 0.2, at and above
580 nm blue 0.0 / green 0.2 / red 0.8; every bin with zero count yields
output 0. -/
theorem combinePhase_spec (acc : BinAcc) (i : ℕ) (hi : i < SPECTRUM_RESOLUTION) :
    (combinePhase acc).getD i 0 =
      if 0 < acc.counts.getD i 0 then
        if (380 : ℚ) + ((i : ℚ) / 100) * 370 < 490 then
          acc.blue.getD i 0 / (acc.counts.getD i 0 : ℚ) * 1 +
            acc.green.getD i 0 / (acc.counts.getD i 0 : ℚ) * (2 / 10) +
            acc.red.getD i 0 / (acc.counts.getD i 0 : ℚ) * 0
        else if 490 ≤ (380 : ℚ) + ((i : ℚ) / 100) * 370 ∧
            (380 : ℚ) + ((i : ℚ) / 100) * 370 < 580 then
          acc.blue.getD i 0 / (acc.counts.getD i 0 : ℚ) * (2 / 10) +
            acc.green.getD i 0 / (acc.counts.getD i 0 : ℚ) * (7 / 10) +
            acc.red.getD i 0 / (acc.counts.getD i 0 : ℚ) * (2 / 10)
        else
          acc.blue.getD i 0 / (acc.counts.getD i 0 : ℚ) * 0 +
            acc.green.getD i 0 / (acc.counts.getD i 0 : ℚ) * (2 / 10) +
            acc.red.getD i 0 / (acc.counts.getD i 0 : ℚ) * (8 / 10)
      else 0 := by
  simp only [combinePhase, getD_map_range _ _ hi]
  by_cases hc : 0 < acc.counts.getD i 0
  · rw [if_pos hc, if_pos hc]
    have hwl : (380 : ℚ) + ((i : ℚ) / (SPECTRUM_RESOLUTION : ℚ)) * (750 - 380) =
        380 + ((i : ℚ) / 100) * 370 := by
      norm_num [SPECTRUM_RESOLUTION]
    rw [hwl]
    set wl : ℚ := 380 + ((i : ℚ) / 100) * 370 with hwldef
    by_cases h1 : wl < 490
    · rw [if_pos h1, if_pos h1]
      ring
    · rw [if_neg h1, if_neg h1]
      by_cases h2 : wl < 580
      · rw [if_pos h2, if_pos (show 490 ≤ wl ∧ wl < 580 from ⟨le_of_not_lt h1, h2⟩)]
        ring
      · rw [if_neg h2, if_neg (show ¬(490 ≤ wl ∧ wl < 580) from fun hq => h2 hq.2)]
        ring
  · rw [if_neg hc, if_neg hc]

/-- Witness for C5 on the initial (all-empty) accumulator at bin 0. -/
theorem combinePhase_spec_witness :
    0 < SPECTRUM_RESOLUTION ∧
    (combinePhase initAcc).getD 0 0 =
      (if 0 < initAcc.counts.getD 0 0 then
        if (380 : ℚ) + ((0 : ℚ) / 100) * 370 < 490 then
          initAcc.blue.getD 0 0 / (initAcc.counts.getD 0 0 : ℚ) * 1 +
            initAcc.green.getD 0 0 / (initAcc.counts.getD 0 0 : ℚ) * (2 / 10) +
            initAcc.red.getD 0 0 / (initAcc.counts.getD 0 0 : ℚ) * 0
        else if 490 ≤ (380 : ℚ) + ((0 : ℚ) / 100) * 370 ∧
            (380 : ℚ) + ((0 : ℚ) / 100) * 370 < 580 then
          initAcc.blue.getD 0 0 / (initAcc.counts.getD 0 0 : ℚ) * (2 / 10) +
            initAcc.green.getD 0 0 / (initAcc.counts.getD 0 0 : ℚ) * (7 / 10) +
            initAcc.red.getD 0 0 / (initAcc.counts.getD 0 0 : ℚ) * (2 / 10)
        else
          initAcc.blue.getD 0 0 / (initAcc.counts.getD 0 0 : ℚ) * 0 +
            initAcc.green.getD 0 0 / (initAcc.counts.getD 0 0 : ℚ) * (2 / 10) +
            initAcc.red.getD 0 0 / (initAcc.counts.getD 0 0 : ℚ) * (8 / 10)
      else 0) :=
  ⟨by decide, combinePhase_spec initAcc 0 (by decide)⟩

/-! ### C6: output invariants of `processImageData` -/

/-- C6: for every pixel block (any dimensions, byte samples) and every
optional calibration block, `processImageData` returns an array of
length exactly `N = 100` whose entries are all non-negative (and, being
exact reals here, finite); out-of-range/undefined reads are substituted
with zero throughout (`getD _ 0`), never propagated.  (IEEE NaN has no
counterpart in this exact-arithmetic model.) -/
theorem processImageData_invariants (img : ImageData) (cal : Option ImageData) :
    (processImageData img cal).length = SPECTRUM_RESOLUTION ∧
    ∀ j : ℕ, 0 ≤ (processImageData img cal).getD j 0 := by
  unfold processImageData
  refine ⟨smoothPhase_length _, fun j => smoothPhase_getD_nonneg _ (fun k => ?_) j⟩
  rw [getD_map_ratCast]
  have hacc := binAccum_getD_nonneg img cal
  have hcp := combinePhase_getD_nonneg (binAccum img cal)
    (fun j => (hacc j).1) (fun j => (hacc j).2.1) (fun j => (hacc j).2.2) k
  exact_mod_cast hcp

/-! ### C10: the alpha channel has no influence -/

/-- C10: two pixel blocks of equal dimensions whose buffers agree on all
red/green/blue sample positions (flat indices `k` with `k % 4 ≠ 3`) but
differ arbitrarily on alpha positions — and likewise two calibration
blocks agreeing except on alpha — produce identical `processImageData`
outputs. -/
theorem processImageData_alpha_independence (w h : ℕ) (d₁ d₂ : List ℕ)
    (cw ch : ℕ) (e₁ e₂ : List ℕ)
    (hd : ∀ k, k < 4 * (w * h) → k % 4 ≠ 3 → d₁.getD k 0 = d₂.getD k 0)
    (he : ∀ k, k < 4 * (w * h) → k % 4 ≠ 3 → e₁.getD k 0 = e₂.getD k 0) :
    processImageData ⟨w, h, d₁⟩ (some ⟨cw, ch, e₁⟩) =
      processImageData ⟨w, h, d₂⟩ (some ⟨cw, ch, e₂⟩) := by
  unfold processImageData binAccum
  have hfold : (coordList w h).foldl (texelStep ⟨w, h, d₁⟩ (some ⟨cw, ch, e₁⟩)) initAcc =
      (coordList w h).foldl (texelStep ⟨w, h, d₂⟩ (some ⟨cw, ch, e₂⟩)) initAcc := by
    apply List.foldl_ext
    intro acc p hp
    have hmem := mem_coordList.mp hp
    exact texelStep_agree w h d₁ d₂ (some ⟨cw, ch, e₁⟩) (some ⟨cw, ch, e₂⟩) hd
      (fun k hk hk4 => he k hk hk4) acc p hmem.1 hmem.2
  show smoothPhase ((combinePhase
      ((coordList w h).foldl (texelStep ⟨w, h, d₁⟩ (some ⟨cw, ch, e₁⟩)) initAcc)).map _) = _
  rw [hfold]

/-- Witness for C10 on concrete 1x1 blocks differing only in alpha
bytes. -/
theorem processImageData_alpha_independence_witness :
    ((∀ k, k < 4 * (1 * 1) → k % 4 ≠ 3 →
        List.getD [40, 40, 40, 0] k 0 = List.getD [40, 40, 40, 255] k 0) ∧
     (∀ k, k < 4 * (1 * 1) → k % 4 ≠ 3 →
        List.getD [0, 0, 0, 7] k 0 = List.getD [0, 0, 0, 9] k 0)) ∧
    processImageData ⟨1, 1, [40, 40, 40, 0]⟩ (some ⟨1, 1, [0, 0, 0, 7]⟩) =
      processImageData ⟨1, 1, [40, 40, 40, 255]⟩ (some ⟨1, 1, [0, 0, 0, 9]⟩) :=
  ⟨⟨by decide, by decide⟩,
    processImageData_alpha_independence 1 1 _ _ 1 1 _ _ (by decide) (by decide)⟩

/-! ### C7: the peak detector -/

/-- C7: the peak detector first applies a 5-tap centered moving average
(at every interior index with two neighbors on each side, the smoothed
value is exactly the 5-tap average of the clamped magnitudes), and its
accepted peak list equals the claim's characterization: candidates are
scanned left to right, and an index is accepted iff its smoothed value
strictly exceeds its immediate and second neighbors on both sides and
the region threshold (0.05 in all three wavelength regions) and its
rendered x-coordinate is more than 25 horizontal pixels from every
already-accepted peak — so an earlier accepted peak can block a later
larger one. -/
theorem detectPeaks_spec (data : List ℝ) (dW dH minA maxA zY : ℝ) :
    (∀ i, 2 ≤ i → i + 2 < data.length →
      ((smoothedPoints (absPoints data dW dH maxA zY)).getD i default).value =
        (((absPoints data dW dH maxA zY).getD (i - 2) default).value +
         ((absPoints data dW dH maxA zY).getD (i - 1) default).value +
         ((absPoints data dW dH maxA zY).getD i default).value +
         ((absPoints data dW dH maxA zY).getD (i + 1) default).value +
         ((absPoints data dW dH maxA zY).getD (i + 2) default).value) / 5) ∧
    detectPeaks data dW dH minA maxA zY =
      claimPeaks (smoothedPoints (absPoints data dW dH maxA zY)) := by
  constructor
  · intro i h2 hn
    have hlen : (absPoints data dW dH maxA zY).length = data.length := by
      simp [absPoints]
    exact smoothedPoints_interior _ i h2 (by rw [hlen]; exact hn)
  · unfold detectPeaks detectPeaksFold claimPeaks
    apply List.foldl_ext
    intro peaks i hi
    have hthr :
        (if ((smoothedPoints (absPoints data dW dH maxA zY)).getD i default).wavelength < 490
          then peakThresholdBlue
        else if ((smoothedPoints (absPoints data dW dH maxA zY)).getD i default).wavelength < 580
          then peakThresholdGreen
        else peakThresholdRed) = (5 / 100 : ℝ) := by
      unfold peakThresholdBlue peakThresholdGreen peakThresholdRed
      split_ifs <;> rfl
    simp only [hthr, peakProximity]
    exact ite_ite_and _ _ _ _

/-- Witness for C7 on a concrete five-bin profile. -/
theorem detectPeaks_spec_witness :
    (2 ≤ 2 ∧ 2 + 2 < [(0 : ℝ), 0, 1, 0, 0].length) ∧
    (((smoothedPoints (absPoints [(0 : ℝ), 0, 1, 0, 0] 100 250 1 160)).getD 2 default).value =
      (((absPoints [(0 : ℝ), 0, 1, 0, 0] 100 250 1 160).getD (2 - 2) default).value +
       ((absPoints [(0 : ℝ), 0, 1, 0, 0] 100 250 1 160).getD (2 - 1) default).value +
       ((absPoints [(0 : ℝ), 0, 1, 0, 0] 100 250 1 160).getD 2 default).value +
       ((absPoints [(0 : ℝ), 0, 1, 0, 0] 100 250 1 160).getD (2 + 1) default).value +
       ((absPoints [(0 : ℝ), 0, 1, 0, 0] 100 250 1 160).getD (2 + 2) default).value) / 5 ∧
     detectPeaks [(0 : ℝ), 0, 1, 0, 0] 100 250 0 1 160 =
       claimPeaks (smoothedPoints (absPoints [(0 : ℝ), 0, 1, 0, 0] 100 250 1 160))) :=
  ⟨⟨by norm_num, by norm_num⟩,
   ⟨(detectPeaks_spec [(0 : ℝ), 0, 1, 0, 0] 100 250 0 1 160).1 2 (by norm_num) (by norm_num),
    (detectPeaks_spec [(0 : ℝ), 0, 1, 0, 0] 100 250 0 1 160).2⟩⟩

end Spectral
